import Mathlib

/-!
# UWBIRRadio: radio state machine with power accounting

A shallow embedding of `modules/phy/UWBIRRadio.h`.

Numeric model.  `simtime_t` and `double` values are exact rationals (`ℚ`), so
`(now - lastStateChange) * powerConsumptions[state]` is computed without
rounding.  Radio states are the `int` values of the enum `UWBIRRadioState`.
The arrays `powerConsumptions` and `swTimes` are read as maps from indices to
entries; whether an index is within `numRadioStates` is a separate question
and is not decided by the lookups.

Faults.  A failed `assert` aborts the run: the operation returns `none`.

State passing.  Every member function takes the radio and returns the radio
it leaves behind (together with its return value when it has one).
-/

/-- The members of a `UWBIRRadio` object: those it declares itself and those it
inherits from the base class `Radio` (`state`, `nextState`, `numRadioStates`,
`swTimes`, `minAtt`, `maxAtt`, `radioStates`).  The two output vectors are the
lists of the values recorded so far, oldest first.  `vectorPower` keeps each
sample as the pair (dividend, divisor) of the quotient
`powerConsumption / simTime().dbl()` that the code records.  `simTime` is the
value the kernel clock `simTime()` shows to this radio; no member function
writes it. -/
structure UWBIRRadio where
  state : Int
  nextState : Int
  numRadioStates : Int
  swTimes : Int → Int → ℚ
  minAtt : ℚ
  maxAtt : ℚ
  radioStates : List Int
  powerConsumptions : Int → ℚ
  powerConsumption : ℚ
  lastStateChange : ℚ
  vectorPower : List (ℚ × ℚ)
  simTime : ℚ

/-- Modelled from the spec: the base-class method `Radio::endSwitch` of
`PhyUtils.h`, which is not part of the sources at hand.  The spec says of
`completeSwitch` that it "sets `currentState = pendingState` (delegated to the
base state-machine behavior this component extends)". -/
def Radio.endSwitch (r : UWBIRRadio) (_now : ℚ) : UWBIRRadio :=
  { r with state := r.nextState }

/-- Modelled from the spec: the base-class constructor
`Radio(numRadioStates, initialState, minAtt, maxAtt)` of `PhyUtils.h`, which is
not part of the sources at hand.  The spec says the radio is built "in the
initial state, with given attenuation bounds"; what the spec leaves open (the
pending state, the switching-time matrix, the kernel clock) is a parameter.
The members of the derived class are not yet initialised here and are given
the value zero. -/
def Radio.construct (numRadioStates initialState : Int) (minAtt maxAtt : ℚ)
    (nextState : Int) (swTimes : Int → Int → ℚ) (simTime : ℚ) : UWBIRRadio :=
  { state := initialState
    nextState := nextState
    numRadioStates := numRadioStates
    swTimes := swTimes
    minAtt := minAtt
    maxAtt := maxAtt
    radioStates := []
    powerConsumptions := fun _ => 0
    powerConsumption := 0
    lastStateChange := 0
    vectorPower := []
    simTime := simTime }

namespace UWBIRRadio

/-- Enumerator `RX = 0`: receiving state. -/
def RX : Int := 0

/-- Enumerator `TX`: transmitting state. -/
def TX : Int := 1

/-- Enumerator `SLEEP`: sleeping. -/
def SLEEP : Int := 2

/-- Enumerator `SWITCHING`: switching between two states. -/
def SWITCHING : Int := 3

/-- Enumerator `SYNC`: state added for synchronization. -/
def SYNC : Int := 4

/-- Enumerator `NUM_RADIO_STATES`: the counter for the number of radio states. -/
def NUM_RADIO_STATES : Int := 5

/-- Method `setPowerConsumption(radioState, _powerConsumption)`: two assertions
on the index, then the table entry is written. -/
def setPowerConsumption (r : UWBIRRadio) (radioState : Int) (_powerConsumption : ℚ) :
    Option UWBIRRadio :=
  if 0 ≤ radioState then
    if radioState < r.numRadioStates then
      some { r with
        powerConsumptions := fun i => if i = radioState then _powerConsumption
                                      else r.powerConsumptions i }
    else none
  else none

/-- Method `updatePowerConsumption(now)`: asserts `now >= lastStateChange`, adds
`(now - lastStateChange) * powerConsumptions[state]` to the counter, moves
`lastStateChange` to `now` and records `powerConsumption / simTime().dbl()`. -/
def updatePowerConsumption (r : UWBIRRadio) (now : ℚ) : Option UWBIRRadio :=
  if now ≥ r.lastStateChange then
    let delta := (now - r.lastStateChange) * r.powerConsumptions r.state
    let powerConsumption := r.powerConsumption + delta
    some { r with
      powerConsumption := powerConsumption
      lastStateChange := now
      vectorPower := r.vectorPower ++ [(powerConsumption, r.simTime)] }
  else none

/-- Method `reallySwitchTo(newState, now)`: accounts up to `now`, stores the pending
state, keeps the old state in `lastState`, enters SWITCHING, records `state`
and returns `swTimes[lastState][nextState]`.  (The call `makeRSAMEntry` of the
base class writes only the attenuation mapping, which is not modelled.) -/
def reallySwitchTo (r : UWBIRRadio) (newState : Int) (now : ℚ) : Option (ℚ × UWBIRRadio) :=
  match updatePowerConsumption r now with
  | none => none
  | some r1 =>
    let r2 := { r1 with nextState := newState }
    let lastState := r2.state
    let r3 := { r2 with state := SWITCHING }
    let r4 := { r3 with radioStates := r3.radioStates ++ [r3.state] }
    some (r4.swTimes lastState r4.nextState, r4)

/-- Method `switchTo(newState, now)`: returns `-1` when there is nothing to do,
otherwise rewrites a request for RX into one for SYNC and really switches. -/
def switchTo (r : UWBIRRadio) (newState : Int) (now : ℚ) : Option (ℚ × UWBIRRadio) :=
  if newState = r.state ∨ (newState = RX ∧ r.state = SYNC) then
    some (-1, r)
  else
    reallySwitchTo r (if newState = RX then SYNC else newState) now

/-- Method `endSwitch(now)`: accounts up to `now`, then runs `Radio::endSwitch`. -/
def endSwitch (r : UWBIRRadio) (now : ℚ) : Option UWBIRRadio :=
  match updatePowerConsumption r now with
  | none => none
  | some r1 => some (Radio.endSwitch r1 now)

/-- Method `getPowerConsumption(now)`: the value returned, and the radio afterwards
(the body assigns to no member). -/
def getPowerConsumption (r : UWBIRRadio) (now : ℚ) : ℚ × UWBIRRadio :=
  (r.powerConsumption + (now - r.lastStateChange) * r.powerConsumptions r.state, r)

/-- The constructor `UWBIRRadio(numRadioStates, initialState, minAtt, maxAtt)`:
the base constructor, then `lastStateChange = 0`, `powerConsumption = 0` and a
power table with every entry `0.0`. -/
def construct (numRadioStates initialState : Int) (minAtt maxAtt : ℚ)
    (nextState : Int) (swTimes : Int → Int → ℚ) (simTime : ℚ) : UWBIRRadio :=
  { Radio.construct numRadioStates initialState minAtt maxAtt nextState swTimes simTime with
    lastStateChange := 0
    powerConsumption := 0
    powerConsumptions := fun _ => 0 }

/-- The factory `createNewUWBIRRadio(initialState, minAtt, maxAtt)`. -/
def createNewUWBIRRadio (initialState : Int) (minAtt maxAtt : ℚ)
    (nextState : Int) (swTimes : Int → Int → ℚ) (simTime : ℚ) : UWBIRRadio :=
  construct NUM_RADIO_STATES initialState minAtt maxAtt nextState swTimes simTime

/-- Method `mapStateToAtt(state)`: `minAtt` for RX and SYNC, `maxAtt` otherwise. -/
def mapStateToAtt (r : UWBIRRadio) (state : Int) : ℚ :=
  if state = RX ∨ state = SYNC then r.minAtt else r.maxAtt

/-- Method `startReceivingFrame(now)`: asserts `state == SYNC`, overwrites `state`
with SWITCHING and `nextState` with RX, then ends the switch. -/
def startReceivingFrame (r : UWBIRRadio) (now : ℚ) : Option UWBIRRadio :=
  if r.state = SYNC then
    endSwitch { r with state := SWITCHING, nextState := RX } now
  else none

/-- Method `finishReceivingFrame(now)`: asserts `state == RX`, overwrites `state`
with SWITCHING and `nextState` with SYNC, then ends the switch. -/
def finishReceivingFrame (r : UWBIRRadio) (now : ℚ) : Option UWBIRRadio :=
  if r.state = RX then
    endSwitch { r with state := SWITCHING, nextState := SYNC } now
  else none

/-- A call of a member function that changes the radio, with its argument
`now` (and the requested state for `switchTo`). -/
inductive Call where
  | switchTo (newState : Int) (now : ℚ)
  | endSwitch (now : ℚ)
  | startReceivingFrame (now : ℚ)
  | finishReceivingFrame (now : ℚ)
  | updatePowerConsumption (now : ℚ)

/-- The time argument of a call. -/
def Call.now : Call → ℚ
  | .switchTo _ now => now
  | .endSwitch now => now
  | .startReceivingFrame now => now
  | .finishReceivingFrame now => now
  | .updatePowerConsumption now => now

/-- The radio after one call; `none` when the call faults. -/
def step (r : UWBIRRadio) : Call → Option UWBIRRadio
  | .switchTo newState now => (switchTo r newState now).map Prod.snd
  | .endSwitch now => endSwitch r now
  | .startReceivingFrame now => startReceivingFrame r now
  | .finishReceivingFrame now => finishReceivingFrame r now
  | .updatePowerConsumption now => updatePowerConsumption r now

/-- The radio after a sequence of calls; `none` when one of them faults. -/
def run (r : UWBIRRadio) : List Call → Option UWBIRRadio
  | [] => some r
  | c :: cs =>
    match step r c with
    | none => none
    | some r1 => run r1 cs

/-- The realised state history of a run: for every call, in order, the time of
the call and the value of `state` the call leaves behind, which the radio then
holds until the next call. -/
def history (r : UWBIRRadio) : List Call → List (ℚ × Int)
  | [] => []
  | c :: cs =>
    match step r c with
    | none => []
    | some r1 => (c.now, r1.state) :: history r1 cs

/-- The sum, over a state history that starts in state `s0` at time `t0` and is
read up to time `T`, of interval length times the power of the state held
during the interval; `P` is the power table. -/
def energyOver (P : Int → ℚ) (s0 : Int) (t0 : ℚ) : List (ℚ × Int) → ℚ → ℚ
  | [], T => (T - t0) * P s0
  | (t, s) :: h, T => (t - t0) * P s0 + energyOver P s t h T

/-- A request through the general interface: `switchTo(target, now)`, and the
time `done` of the `endSwitch` that completes it when it is not a no-op. -/
structure Request where
  target : Int
  now : ℚ
  done : ℚ

/-- The calls one request makes on radio `r`: the `switchTo` alone when it takes
the nothing-to-do branch, otherwise the `switchTo` followed by its
`endSwitch`. -/
def Request.calls (r : UWBIRRadio) (q : Request) : List Call :=
  if q.target = r.state ∨ (q.target = RX ∧ r.state = SYNC) then
    [Call.switchTo q.target q.now]
  else
    [Call.switchTo q.target q.now, Call.endSwitch q.done]

/-- The calls a sequence of requests makes, starting on radio `r`: every
non-no-op `switchTo` is followed by its `endSwitch` before the next request. -/
def trace (r : UWBIRRadio) : List Request → List Call
  | [] => []
  | q :: qs =>
    q.calls r ++
      (match run r (q.calls r) with
       | none => []
       | some r1 => trace r1 qs)

/-- The value of a recorded sample, kept as (dividend, divisor): the quotient,
which exists only when the divisor is not zero. -/
def sampleValue (p : ℚ × ℚ) : Option ℚ :=
  if p.2 = 0 then none else some (p.1 / p.2)

/-- The array indices a call reads on radio `r`.  A `switchTo` that really
switches reads `powerConsumptions[state]` and `swTimes[lastState][nextState]`,
where `lastState` is the old state and `nextState` the rewritten target;
`endSwitch` and `updatePowerConsumption` read `powerConsumptions[state]`; a
frame notification that passes its assertion reads
`powerConsumptions[SWITCHING]`. -/
def indicesRead (r : UWBIRRadio) : Call → List Int
  | .switchTo newState _ =>
    if newState = r.state ∨ (newState = RX ∧ r.state = SYNC) then []
    else [r.state, r.state, if newState = RX then SYNC else newState]
  | .endSwitch _ => [r.state]
  | .startReceivingFrame _ => if r.state = SYNC then [SWITCHING] else []
  | .finishReceivingFrame _ => if r.state = RX then [SWITCHING] else []
  | .updatePowerConsumption _ => [r.state]

/-- What the callers owe the radio for a call: the target of `switchTo` is RX,
TX or SLEEP, and `endSwitch` comes only while `state == SWITCHING`. -/
def admissible (r : UWBIRRadio) : Call → Bool
  | .switchTo newState _ => decide (newState = RX ∨ newState = TX ∨ newState = SLEEP)
  | .endSwitch _ => decide (r.state = SWITCHING)
  | _ => true

/-- Every call of the sequence is admissible on the radio it meets. -/
def admissibleRun (r : UWBIRRadio) : List Call → Bool
  | [] => true
  | c :: cs =>
    admissible r c &&
      (match step r c with
       | none => true
       | some r1 => admissibleRun r1 cs)

/-- Every index read by every call of the sequence, on the radio the call
meets, lies in `0 .. numRadioStates - 1`. -/
def lookupsInBounds (r : UWBIRRadio) : List Call → Bool
  | [] => true
  | c :: cs =>
    (indicesRead r c).all (fun i => decide (0 ≤ i ∧ i < r.numRadioStates)) &&
      (match step r c with
       | none => true
       | some r1 => lookupsInBounds r1 cs)

end UWBIRRadio

/-! ## Concrete radios used as witnesses and counterexamples -/

namespace UWBIRRadio

/-- The power table {RX:50, TX:100, SLEEP:1, SWITCHING:10, SYNC:20}. -/
def scenarioPower : Int → ℚ := fun i =>
  if i = RX then 50 else if i = TX then 100 else if i = SLEEP then 1
  else if i = SWITCHING then 10 else if i = SYNC then 20 else 0

/-- A switching-time matrix with `swTimes[SYNC][TX] = 5`, every other entry 2. -/
def scenarioSwTimes : Int → Int → ℚ := fun i j =>
  if i = SYNC ∧ j = TX then 5 else 2

/-- The scenario radio: created in state SYNC by the factory with the default
attenuation bounds, then given the scenario power table and switching times. -/
def scenarioRadio : UWBIRRadio :=
  { createNewUWBIRRadio SYNC 1 0 SYNC scenarioSwTimes 0 with
    powerConsumptions := scenarioPower }

/-- The scenario radio put into state `s`. -/
def scenarioIn (s : Int) : UWBIRRadio :=
  { scenarioRadio with state := s }

/-- Three requests on the scenario radio: to TX at time 0 (completed at 5), to
TX again at time 6 (a no-op), to RX at time 8 (completed at 10). -/
def scenarioRequests : List Request :=
  [{ target := TX, now := 0, done := 5 }, { target := TX, now := 6, done := 6 },
   { target := RX, now := 8, done := 10 }]

/-- The scenario radio in state TX while the kernel clock shows 7. -/
def scenarioClock7 : UWBIRRadio :=
  { scenarioRadio with state := TX, simTime := 7 }

/-- Six calls on the scenario radio: a switch to TX (0 to 5), a request for RX
that goes to SYNC (6 to 8), a frame locked at 9 and finished at 11. -/
def scenarioCalls : List Call :=
  [Call.switchTo TX 0, Call.endSwitch 5, Call.switchTo RX 6, Call.endSwitch 8,
   Call.startReceivingFrame 9, Call.finishReceivingFrame 11]

/-- The scenario radio in state TX whose last accounting happened at time 5. -/
def scenarioLate : UWBIRRadio :=
  { scenarioRadio with state := TX, lastStateChange := 5 }

end UWBIRRadio

/-! ## Lemmas on the accounting step -/

namespace UWBIRRadio

theorem updatePowerConsumption_of_le (r : UWBIRRadio) (now : ℚ)
    (h : r.lastStateChange ≤ now) :
    updatePowerConsumption r now = some { r with
      powerConsumption :=
        r.powerConsumption + (now - r.lastStateChange) * r.powerConsumptions r.state
      lastStateChange := now
      vectorPower := r.vectorPower ++
        [(r.powerConsumption + (now - r.lastStateChange) * r.powerConsumptions r.state,
          r.simTime)] } := by
  unfold updatePowerConsumption
  rw [if_pos (show now ≥ r.lastStateChange from h)]

theorem updatePowerConsumption_of_lt (r : UWBIRRadio) (now : ℚ)
    (h : now < r.lastStateChange) : updatePowerConsumption r now = none := by
  unfold updatePowerConsumption
  rw [if_neg (show ¬ now ≥ r.lastStateChange from not_le.mpr h)]

theorem endSwitch_of_le (r : UWBIRRadio) (now : ℚ) (h : r.lastStateChange ≤ now) :
    endSwitch r now = some { r with
      state := r.nextState
      powerConsumption :=
        r.powerConsumption + (now - r.lastStateChange) * r.powerConsumptions r.state
      lastStateChange := now
      vectorPower := r.vectorPower ++
        [(r.powerConsumption + (now - r.lastStateChange) * r.powerConsumptions r.state,
          r.simTime)] } := by
  unfold endSwitch
  rw [updatePowerConsumption_of_le r now h]
  rfl

theorem reallySwitchTo_of_le (r : UWBIRRadio) (newState : Int) (now : ℚ)
    (h : r.lastStateChange ≤ now) :
    reallySwitchTo r newState now = some (r.swTimes r.state newState, { r with
      state := SWITCHING
      nextState := newState
      radioStates := r.radioStates ++ [SWITCHING]
      powerConsumption :=
        r.powerConsumption + (now - r.lastStateChange) * r.powerConsumptions r.state
      lastStateChange := now
      vectorPower := r.vectorPower ++
        [(r.powerConsumption + (now - r.lastStateChange) * r.powerConsumptions r.state,
          r.simTime)] }) := by
  unfold reallySwitchTo
  rw [updatePowerConsumption_of_le r now h]

theorem startReceivingFrame_of_le (r : UWBIRRadio) (now : ℚ) (hs : r.state = SYNC)
    (h : r.lastStateChange ≤ now) :
    startReceivingFrame r now = some { r with
      state := RX
      nextState := RX
      powerConsumption :=
        r.powerConsumption + (now - r.lastStateChange) * r.powerConsumptions SWITCHING
      lastStateChange := now
      vectorPower := r.vectorPower ++
        [(r.powerConsumption + (now - r.lastStateChange) * r.powerConsumptions SWITCHING,
          r.simTime)] } := by
  unfold startReceivingFrame
  rw [if_pos hs]
  exact endSwitch_of_le _ now h

theorem finishReceivingFrame_of_le (r : UWBIRRadio) (now : ℚ) (hs : r.state = RX)
    (h : r.lastStateChange ≤ now) :
    finishReceivingFrame r now = some { r with
      state := SYNC
      nextState := SYNC
      powerConsumption :=
        r.powerConsumption + (now - r.lastStateChange) * r.powerConsumptions SWITCHING
      lastStateChange := now
      vectorPower := r.vectorPower ++
        [(r.powerConsumption + (now - r.lastStateChange) * r.powerConsumptions SWITCHING,
          r.simTime)] } := by
  unfold finishReceivingFrame
  rw [if_pos hs]
  exact endSwitch_of_le _ now h

theorem switchTo_noop (r : UWBIRRadio) (newState : Int) (now : ℚ)
    (h : newState = r.state ∨ (newState = RX ∧ r.state = SYNC)) :
    switchTo r newState now = some (-1, r) := by
  unfold switchTo
  rw [if_pos h]

theorem switchTo_really (r : UWBIRRadio) (newState : Int) (now : ℚ)
    (h : ¬ (newState = r.state ∨ (newState = RX ∧ r.state = SYNC))) :
    switchTo r newState now =
      reallySwitchTo r (if newState = RX then SYNC else newState) now := by
  unfold switchTo
  rw [if_neg h]

theorem reallySwitchTo_of_lt (r : UWBIRRadio) (newState : Int) (now : ℚ)
    (h : now < r.lastStateChange) : reallySwitchTo r newState now = none := by
  unfold reallySwitchTo
  rw [updatePowerConsumption_of_lt r now h]

theorem switchTo_then_endSwitch (r : UWBIRRadio) (target : Int) (now done : ℚ)
    (hn : ¬ (target = r.state ∨ (target = RX ∧ r.state = SYNC)))
    (h1 : r.lastStateChange ≤ now) (h2 : now ≤ done) :
    ∃ r1 r2,
      switchTo r target now =
        some (r.swTimes r.state (if target = RX then SYNC else target), r1) ∧
      endSwitch r1 done = some r2 ∧
      r2.state = (if target = RX then SYNC else target) ∧
      r2.powerConsumption =
        r.powerConsumption + (now - r.lastStateChange) * r.powerConsumptions r.state +
          (done - now) * r.powerConsumptions SWITCHING ∧
      r2.lastStateChange = done := by
  unfold switchTo
  rw [if_neg hn, reallySwitchTo_of_le r _ now h1]
  exact ⟨_, _, rfl, endSwitch_of_le _ done h2, rfl, rfl, rfl⟩

end UWBIRRadio

/-! ## Frame notifications, the no-op branch and the attenuation mapping -/

namespace UWBIRRadio

/-- C5: `startReceivingFrame(now)` faults whenever `state != SYNC`; with
`state == SYNC` and `now >= lastStateChange` it succeeds and ends with
`state == RX`, and the outcome does not depend on the switching-time matrix:
replacing the matrix by any other one gives the same radio up to that
matrix. -/
theorem startReceivingFrame_faults_or_enters_RX (r : UWBIRRadio) (now : ℚ) :
    (r.state ≠ SYNC → startReceivingFrame r now = none) ∧
    (r.state = SYNC → r.lastStateChange ≤ now →
      ∃ r1, startReceivingFrame r now = some r1 ∧ r1.state = RX ∧
        ∀ m : Int → Int → ℚ,
          startReceivingFrame { r with swTimes := m } now = some { r1 with swTimes := m }) := by
  refine ⟨fun h => ?_, fun hs hnow => ?_⟩
  · unfold startReceivingFrame
    rw [if_neg h]
  · exact ⟨_, startReceivingFrame_of_le r now hs hnow, rfl,
      fun m => startReceivingFrame_of_le _ now hs hnow⟩

/-- Witness for C5 on the scenario radio: a radio in TX faults, and the radio
in SYNC locks on a frame at time 3 and is in RX afterwards. -/
theorem startReceivingFrame_faults_or_enters_RX_witness :
    startReceivingFrame (scenarioIn TX) 3 = none ∧
    ∃ r1, startReceivingFrame scenarioRadio 3 = some r1 ∧ r1.state = RX ∧
      ∀ m : Int → Int → ℚ,
        startReceivingFrame { scenarioRadio with swTimes := m } 3 =
          some { r1 with swTimes := m } :=
  ⟨(startReceivingFrame_faults_or_enters_RX (scenarioIn TX) 3).1 (by decide),
   (startReceivingFrame_faults_or_enters_RX scenarioRadio 3).2 rfl
     (by norm_num [scenarioRadio, createNewUWBIRRadio, construct])⟩

/-- C6: `finishReceivingFrame(now)` faults whenever `state != RX`; with
`state == RX` and `now >= lastStateChange` it succeeds and ends with
`state == SYNC`. -/
theorem finishReceivingFrame_faults_or_enters_SYNC (r : UWBIRRadio) (now : ℚ) :
    (r.state ≠ RX → finishReceivingFrame r now = none) ∧
    (r.state = RX → r.lastStateChange ≤ now →
      ∃ r1, finishReceivingFrame r now = some r1 ∧ r1.state = SYNC) := by
  refine ⟨fun h => ?_, fun hs hnow => ?_⟩
  · unfold finishReceivingFrame
    rw [if_neg h]
  · exact ⟨_, finishReceivingFrame_of_le r now hs hnow, rfl⟩

/-- Witness for C6 on the scenario radio: in SYNC the call faults, and in RX
the frame ends at time 3 and the radio is in SYNC afterwards. -/
theorem finishReceivingFrame_faults_or_enters_SYNC_witness :
    finishReceivingFrame scenarioRadio 3 = none ∧
    ∃ r1, finishReceivingFrame (scenarioIn RX) 3 = some r1 ∧ r1.state = SYNC :=
  ⟨(finishReceivingFrame_faults_or_enters_SYNC scenarioRadio 3).1 (by decide),
   (finishReceivingFrame_faults_or_enters_SYNC (scenarioIn RX) 3).2 rfl
     (by norm_num [scenarioIn, scenarioRadio, createNewUWBIRRadio, construct])⟩

/-- C7: for every radio and every `now`, `switchTo(state, now)` with the target
equal to the current state returns `-1` and leaves the radio exactly as it
was: `state`, `nextState`, the power table, the counter, `lastStateChange`
and both output vectors are unchanged, and `getPowerConsumption(t)` returns
the same value before and after the call for every `t`. -/
theorem switchTo_current_state_is_noop (r : UWBIRRadio) (now : ℚ) :
    ∃ r1, switchTo r r.state now = some (-1, r1) ∧ r1 = r ∧
      r1.state = r.state ∧ r1.nextState = r.nextState ∧
      r1.powerConsumptions = r.powerConsumptions ∧
      r1.powerConsumption = r.powerConsumption ∧
      r1.lastStateChange = r.lastStateChange ∧
      r1.vectorPower = r.vectorPower ∧ r1.radioStates = r.radioStates ∧
      ∀ t, (getPowerConsumption r1 t).1 = (getPowerConsumption r t).1 :=
  ⟨r, switchTo_noop r r.state now (Or.inl rfl), rfl, rfl, rfl, rfl, rfl, rfl, rfl, rfl,
    fun _ => rfl⟩

/-- C9: `mapStateToAtt` depends only on its argument and on the two bounds:
it is `minAtt` for RX and for SYNC, and `maxAtt` for TX, SLEEP, SWITCHING and
every other state value. -/
theorem mapStateToAtt_values (r : UWBIRRadio) :
    mapStateToAtt r RX = r.minAtt ∧ mapStateToAtt r SYNC = r.minAtt ∧
    mapStateToAtt r TX = r.maxAtt ∧ mapStateToAtt r SLEEP = r.maxAtt ∧
    mapStateToAtt r SWITCHING = r.maxAtt ∧
    (∀ s : Int, s ≠ RX → s ≠ SYNC → mapStateToAtt r s = r.maxAtt) ∧
    (∀ (r2 : UWBIRRadio) (s : Int), r2.minAtt = r.minAtt → r2.maxAtt = r.maxAtt →
      mapStateToAtt r2 s = mapStateToAtt r s) := by
  have hmax : ∀ s : Int, s ≠ RX → s ≠ SYNC → mapStateToAtt r s = r.maxAtt := by
    intro s h1 h2
    unfold mapStateToAtt
    rw [if_neg (by rintro (h | h); exacts [h1 h, h2 h])]
  refine ⟨?_, ?_, hmax TX (by decide) (by decide), hmax SLEEP (by decide) (by decide),
    hmax SWITCHING (by decide) (by decide), hmax, ?_⟩
  · unfold mapStateToAtt
    rw [if_pos (Or.inl rfl)]
  · unfold mapStateToAtt
    rw [if_pos (Or.inr rfl)]
  · intro r2 s h1 h2
    unfold mapStateToAtt
    rw [h1, h2]

/-- Witness for C9: on the scenario radio the extension state 7 maps to
`maxAtt`, and a radio in another state with the same bounds maps RX alike. -/
theorem mapStateToAtt_values_witness :
    mapStateToAtt scenarioRadio 7 = scenarioRadio.maxAtt ∧
    mapStateToAtt (scenarioIn TX) RX = mapStateToAtt scenarioRadio RX :=
  ⟨(mapStateToAtt_values scenarioRadio).2.2.2.2.2.1 7 (by decide) (by decide),
   (mapStateToAtt_values scenarioRadio).2.2.2.2.2.2 (scenarioIn TX) RX rfl rfl⟩

end UWBIRRadio

/-! ## Switching through the general interface and reading the counter -/

namespace UWBIRRadio

/-- C8: from a state in {RX, TX, SLEEP, SYNC}, for a target in {RX, TX, SLEEP}
that does not take the nothing-to-do branch, and `now >= lastStateChange`,
`switchTo(target, now)` succeeds, accounts the energy up to `now` at the rate
of the old state, sets `nextState` to the target (SYNC when the target is RX),
sets `state` to SWITCHING and returns `swTimes[old state][nextState]`; an RX
request from TX thus returns `swTimes[TX][SYNC]`. -/
theorem switchTo_accounts_and_enters_SWITCHING (r : UWBIRRadio) (target : Int) (now : ℚ)
    (_hs : r.state = RX ∨ r.state = TX ∨ r.state = SLEEP ∨ r.state = SYNC)
    (_ht : target = RX ∨ target = TX ∨ target = SLEEP)
    (hn : ¬ (target = r.state ∨ (target = RX ∧ r.state = SYNC)))
    (hnow : r.lastStateChange ≤ now) :
    ∃ d r1, switchTo r target now = some (d, r1) ∧
      r1.powerConsumption =
        r.powerConsumption + (now - r.lastStateChange) * r.powerConsumptions r.state ∧
      r1.lastStateChange = now ∧
      r1.nextState = (if target = RX then SYNC else target) ∧
      r1.state = SWITCHING ∧
      d = r.swTimes r.state r1.nextState ∧
      (r.state = TX → target = RX → d = r.swTimes TX SYNC) := by
  have h := (switchTo_really r target now hn).trans (reallySwitchTo_of_le r _ now hnow)
  refine ⟨_, _, h, rfl, rfl, rfl, rfl, rfl, ?_⟩
  intro h1 h2
  rw [h1, if_pos h2]

/-- Witness for C8: the scenario radio in TX is asked for RX at time 4. -/
theorem switchTo_accounts_and_enters_SWITCHING_witness :
    ∃ d r1, switchTo (scenarioIn TX) RX 4 = some (d, r1) ∧
      r1.powerConsumption =
        (scenarioIn TX).powerConsumption +
          (4 - (scenarioIn TX).lastStateChange) *
            (scenarioIn TX).powerConsumptions (scenarioIn TX).state ∧
      r1.lastStateChange = 4 ∧
      r1.nextState = (if RX = RX then SYNC else RX) ∧
      r1.state = SWITCHING ∧
      d = (scenarioIn TX).swTimes (scenarioIn TX).state r1.nextState ∧
      ((scenarioIn TX).state = TX → RX = RX → d = (scenarioIn TX).swTimes TX SYNC) :=
  switchTo_accounts_and_enters_SWITCHING (scenarioIn TX) RX 4
    (Or.inr (Or.inl rfl)) (Or.inl rfl) (by decide)
    (by norm_num [scenarioIn, scenarioRadio, createNewUWBIRRadio, construct])

/-- C10: for `now >= lastStateChange`, `getPowerConsumption(now)` leaves the
radio as it was, returns
`powerConsumption + (now - lastStateChange) * powerConsumptions[state]`, and
that value is the counter `updatePowerConsumption(now)` stores on the same
radio; a query at any time `t` changes the outcome of no later sequence of
calls. -/
theorem getPowerConsumption_is_read_only (r : UWBIRRadio) (now : ℚ)
    (hnow : r.lastStateChange ≤ now) :
    (getPowerConsumption r now).2 = r ∧
    (getPowerConsumption r now).1 =
      r.powerConsumption + (now - r.lastStateChange) * r.powerConsumptions r.state ∧
    (∃ r1, updatePowerConsumption r now = some r1 ∧
      r1.powerConsumption = (getPowerConsumption r now).1) ∧
    (∀ (t : ℚ) (cs : List Call), run (getPowerConsumption r t).2 cs = run r cs) :=
  ⟨rfl, rfl, ⟨_, updatePowerConsumption_of_le r now hnow, rfl⟩, fun _ _ => rfl⟩

/-- Witness for C10: the scenario radio in TX queried at time 6. -/
theorem getPowerConsumption_is_read_only_witness :
    (getPowerConsumption (scenarioIn TX) 6).2 = scenarioIn TX ∧
    (getPowerConsumption (scenarioIn TX) 6).1 =
      (scenarioIn TX).powerConsumption +
        (6 - (scenarioIn TX).lastStateChange) *
          (scenarioIn TX).powerConsumptions (scenarioIn TX).state ∧
    (∃ r1, updatePowerConsumption (scenarioIn TX) 6 = some r1 ∧
      r1.powerConsumption = (getPowerConsumption (scenarioIn TX) 6).1) ∧
    (∀ (t : ℚ) (cs : List Call),
      run (getPowerConsumption (scenarioIn TX) t).2 cs = run (scenarioIn TX) cs) :=
  getPowerConsumption_is_read_only (scenarioIn TX) 6
    (by norm_num [scenarioIn, scenarioRadio, createNewUWBIRRadio, construct])

end UWBIRRadio

/-! ## The two scenarios and the request for RX -/

namespace UWBIRRadio

/-- C2, as stated, fails on the scenario radio (state SYNC, `lastStateChange = 0`,
counter 0, table {RX:50, TX:100, SLEEP:1, SWITCHING:10, SYNC:20},
`swTimes[SYNC][TX] = 5`): `switchTo(TX, 0)` returns 5 and `endSwitch(5)` ends
in TX, but the counter is 50 and not 100. -/
theorem scenario_counter_is_not_100 :
    scenarioRadio.state = SYNC ∧ scenarioRadio.lastStateChange = 0 ∧
    scenarioRadio.powerConsumption = 0 ∧ scenarioRadio.swTimes SYNC TX = 5 ∧
    ∃ r1 r2, switchTo scenarioRadio TX 0 = some (5, r1) ∧ endSwitch r1 5 = some r2 ∧
      r2.state = TX ∧ r2.powerConsumption = 50 ∧ r2.powerConsumption ≠ 20 * 5 := by
  have hsw : scenarioRadio.swTimes SYNC TX = 5 := by
    norm_num [scenarioRadio, scenarioSwTimes, createNewUWBIRRadio, construct, Radio.construct]
  refine ⟨rfl, rfl, rfl, hsw, ?_⟩
  obtain ⟨r1, r2, h1, h2, h3, h4, _⟩ :=
    switchTo_then_endSwitch scenarioRadio TX 0 5 (by decide) (le_refl _) (by norm_num)
  have h5 : r2.powerConsumption = 50 := by
    rw [h4]
    norm_num [scenarioRadio, scenarioPower, createNewUWBIRRadio, construct,
      Radio.construct, RX, TX, SLEEP, SWITCHING, SYNC]
  refine ⟨r1, r2, ?_, h2, ?_, h5, ?_⟩
  · rw [h1, if_neg (by decide)]
    exact congrArg (fun d => some (d, r1)) hsw
  · rw [h3, if_neg (by decide)]
  · rw [h5]
    norm_num

/-- C2, amended: for a radio in state SYNC with `lastStateChange = 0`, counter 0,
power table {RX:50, TX:100, SLEEP:1, SWITCHING:10, SYNC:20} and
`swTimes[SYNC][TX] = 5`, `switchTo(TX, 0)` returns 5, and after `endSwitch(5)`
the counter is 10*5 = 50 (the interval from 0 to 5 is spent in SWITCHING) and
`state == TX`. -/
theorem scenario_switch_SYNC_to_TX (r : UWBIRRadio)
    (hs : r.state = SYNC) (hl : r.lastStateChange = 0) (hp : r.powerConsumption = 0)
    (_hRX : r.powerConsumptions RX = 50) (_hTX : r.powerConsumptions TX = 100)
    (_hSLEEP : r.powerConsumptions SLEEP = 1) (hSW : r.powerConsumptions SWITCHING = 10)
    (_hSYNC : r.powerConsumptions SYNC = 20) (hsw : r.swTimes SYNC TX = 5) :
    ∃ r1 r2, switchTo r TX 0 = some (5, r1) ∧ endSwitch r1 5 = some r2 ∧
      r2.powerConsumption = 10 * 5 ∧ r2.state = TX := by
  obtain ⟨r1, r2, h1, h2, h3, h4, _⟩ :=
    switchTo_then_endSwitch r TX 0 5 (by rw [hs]; decide) (le_of_eq hl) (by norm_num)
  refine ⟨r1, r2, ?_, h2, ?_, ?_⟩
  · rw [h1, if_neg (by decide), hs]
    exact congrArg (fun d => some (d, r1)) hsw
  · rw [h4, hp, hl, hSW]
    norm_num
  · rw [h3, if_neg (by decide)]

/-- Witness for the amended C2: the scenario radio. -/
theorem scenario_switch_SYNC_to_TX_witness :
    ∃ r1 r2, switchTo scenarioRadio TX 0 = some (5, r1) ∧ endSwitch r1 5 = some r2 ∧
      r2.powerConsumption = 10 * 5 ∧ r2.state = TX :=
  scenario_switch_SYNC_to_TX scenarioRadio rfl rfl rfl
    (by norm_num [scenarioRadio, scenarioPower, RX])
    (by norm_num [scenarioRadio, scenarioPower, RX, TX])
    (by norm_num [scenarioRadio, scenarioPower, RX, TX, SLEEP])
    (by norm_num [scenarioRadio, scenarioPower, RX, TX, SLEEP, SWITCHING])
    (by norm_num [scenarioRadio, scenarioPower, RX, TX, SLEEP, SWITCHING, SYNC])
    (by norm_num [scenarioRadio, scenarioSwTimes, createNewUWBIRRadio, construct,
      Radio.construct])

/-- C3, as stated, fails in two places.  The scenario radio, after
`startReceivingFrame(3)`, is in RX (a state other than SYNC), and
`switchTo(RX, 7)` is then a no-op that leaves `nextState == RX`, not SYNC.
The radio in TX whose last accounting was at time 5 faults on
`switchTo(RX, 3)` and leaves no pending state at all. -/
theorem switchTo_RX_not_always_pending_SYNC :
    (∃ r1, startReceivingFrame scenarioRadio 3 = some r1 ∧ r1.state ≠ SYNC ∧
      switchTo r1 RX 7 = some (-1, r1) ∧ r1.nextState = RX ∧ r1.nextState ≠ SYNC) ∧
    (scenarioLate.state ≠ SYNC ∧ switchTo scenarioLate RX 3 = none) := by
  refine ⟨⟨_, startReceivingFrame_of_le scenarioRadio 3 rfl (by norm_num [scenarioRadio,
    createNewUWBIRRadio, construct]), ?_, switchTo_noop _ RX 7 (Or.inl rfl), rfl, ?_⟩, ?_, ?_⟩
  · show RX ≠ SYNC
    decide
  · show RX ≠ SYNC
    decide
  · show TX ≠ SYNC
    decide
  · rw [switchTo_really scenarioLate RX 3 (by decide)]
    exact reallySwitchTo_of_lt scenarioLate _ 3 (by norm_num [scenarioLate])

/-- C3, amended: `switchTo(RX, now)` is a no-op (returns `-1`, the radio is
unchanged) when `state` is SYNC or RX; when `state` is anything else and
`now >= lastStateChange` it succeeds and leaves `nextState == SYNC`, never
RX. -/
theorem switchTo_RX_noop_or_pending_SYNC (r : UWBIRRadio) (now : ℚ) :
    (r.state = SYNC ∨ r.state = RX → switchTo r RX now = some (-1, r)) ∧
    (r.state ≠ SYNC → r.state ≠ RX → r.lastStateChange ≤ now →
      ∃ d r1, switchTo r RX now = some (d, r1) ∧ r1.nextState = SYNC ∧
        r1.nextState ≠ RX) := by
  refine ⟨fun h => ?_, fun h1 h2 hnow => ?_⟩
  · refine switchTo_noop r RX now ?_
    rcases h with h | h
    · exact Or.inr ⟨rfl, h⟩
    · exact Or.inl h.symm
  · have hn : ¬ (RX = r.state ∨ (RX = RX ∧ r.state = SYNC)) := by
      rintro (h | ⟨_, h⟩)
      · exact h2 h.symm
      · exact h1 h
    have h := (switchTo_really r RX now hn).trans (reallySwitchTo_of_le r _ now hnow)
    rw [if_pos rfl] at h
    refine ⟨_, _, h, rfl, ?_⟩
    show SYNC ≠ RX
    decide

/-- Witness for the amended C3: the scenario radio in SYNC (no-op) and in TX
(pending state SYNC) at time 4. -/
theorem switchTo_RX_noop_or_pending_SYNC_witness :
    switchTo scenarioRadio RX 4 = some (-1, scenarioRadio) ∧
    ∃ d r1, switchTo (scenarioIn TX) RX 4 = some (d, r1) ∧ r1.nextState = SYNC ∧
      r1.nextState ≠ RX :=
  ⟨(switchTo_RX_noop_or_pending_SYNC scenarioRadio 4).1 (Or.inl rfl),
   (switchTo_RX_noop_or_pending_SYNC (scenarioIn TX) 4).2 (by decide) (by decide)
     (by norm_num [scenarioIn, scenarioRadio, createNewUWBIRRadio, construct])⟩

/-- C4 on the scenario radio in RX (RX power 50, SWITCHING power 10, last
accounting at 0): `finishReceivingFrame(10)` ends in SYNC, and the counter
grows by 10*10 = 100, the SWITCHING rate, not by 10*50 = 500. -/
theorem finishReceivingFrame_scenario_adds_100 :
    (scenarioIn RX).state = RX ∧ (scenarioIn RX).lastStateChange = 0 ∧
    (scenarioIn RX).powerConsumption = 0 ∧ (scenarioIn RX).powerConsumptions RX = 50 ∧
    ∃ r1, finishReceivingFrame (scenarioIn RX) 10 = some r1 ∧ r1.state = SYNC ∧
      r1.powerConsumption = 100 ∧
      r1.powerConsumption ≠
        (scenarioIn RX).powerConsumption +
          (10 - (scenarioIn RX).lastStateChange) * (scenarioIn RX).powerConsumptions RX := by
  refine ⟨rfl, rfl, rfl, by norm_num [scenarioIn, scenarioRadio, scenarioPower, RX],
    _, finishReceivingFrame_of_le (scenarioIn RX) 10 rfl (by norm_num [scenarioIn,
      scenarioRadio, createNewUWBIRRadio, construct]), rfl, ?_, ?_⟩
  · norm_num [scenarioIn, scenarioRadio, scenarioPower, createNewUWBIRRadio, construct,
      Radio.construct, RX, TX, SLEEP, SWITCHING, SYNC]
  · norm_num [scenarioIn, scenarioRadio, scenarioPower, createNewUWBIRRadio, construct,
      Radio.construct, RX, TX, SLEEP, SWITCHING, SYNC]

end UWBIRRadio

/-! ## The counter against the realised state history -/

namespace UWBIRRadio

theorem step_switchTo_of_le (r : UWBIRRadio) (s : Int) (t : ℚ)
    (hn : ¬ (s = r.state ∨ (s = RX ∧ r.state = SYNC))) (hle : r.lastStateChange ≤ t) :
    step r (Call.switchTo s t) = some { r with
      state := SWITCHING
      nextState := if s = RX then SYNC else s
      radioStates := r.radioStates ++ [SWITCHING]
      powerConsumption :=
        r.powerConsumption + (t - r.lastStateChange) * r.powerConsumptions r.state
      lastStateChange := t
      vectorPower := r.vectorPower ++
        [(r.powerConsumption + (t - r.lastStateChange) * r.powerConsumptions r.state,
          r.simTime)] } := by
  simp only [step, switchTo_really r s t hn, reallySwitchTo_of_le r _ t hle,
    Option.map_some']

theorem step_general (r : UWBIRRadio) (c : Call) (t0 : ℚ)
    (hc : (∃ s t, c = Call.switchTo s t) ∨ (∃ t, c = Call.endSwitch t))
    (h0 : r.lastStateChange ≤ t0) (h1 : t0 ≤ c.now) :
    ∃ r1, step r c = some r1 ∧ r1.lastStateChange ≤ c.now ∧
      r1.powerConsumptions = r.powerConsumptions ∧
      (getPowerConsumption r1 c.now).1 = (getPowerConsumption r c.now).1 := by
  have hle : r.lastStateChange ≤ c.now := le_trans h0 h1
  rcases hc with ⟨s, t, rfl⟩ | ⟨t, rfl⟩
  · by_cases hn : s = r.state ∨ (s = RX ∧ r.state = SYNC)
    · refine ⟨r, ?_, hle, rfl, rfl⟩
      simp only [step, switchTo_noop r s t hn, Option.map_some']
    · have hs := step_switchTo_of_le r s t hn hle
      refine ⟨_, hs, le_refl t, rfl, ?_⟩
      simp only [getPowerConsumption, Call.now]
      ring
  · have hs : step r (Call.endSwitch t) = some _ := endSwitch_of_le r t hle
    refine ⟨_, hs, le_refl t, rfl, ?_⟩
    simp only [getPowerConsumption, Call.now]
    ring

theorem run_general (cs : List Call) :
    ∀ (r : UWBIRRadio) (t0 T : ℚ),
      (∀ c ∈ cs, (∃ s t, c = Call.switchTo s t) ∨ (∃ t, c = Call.endSwitch t)) →
      r.lastStateChange ≤ t0 →
      List.Chain (· ≤ ·) t0 (cs.map Call.now ++ [T]) →
      ∃ r1, run r cs = some r1 ∧ r1.lastStateChange ≤ T ∧
        (getPowerConsumption r1 T).1 =
          (getPowerConsumption r t0).1 +
            energyOver r.powerConsumptions r.state t0 (history r cs) T := by
  induction cs with
  | nil =>
    intro r t0 T _ h0 hch
    have hT : t0 ≤ T := by
      simpa using hch
    refine ⟨r, rfl, le_trans h0 hT, ?_⟩
    simp only [getPowerConsumption, history, energyOver]
    ring
  | cons c cs ih =>
    intro r t0 T hall h0 hch
    rw [List.map_cons, List.cons_append, List.chain_cons] at hch
    obtain ⟨r1, hstep, hlast, hP, hget⟩ :=
      step_general r c t0 (hall c (List.mem_cons_self c cs)) h0 hch.1
    obtain ⟨r2, hrun, hlast2, hsum⟩ :=
      ih r1 c.now T (fun d hd => hall d (List.mem_cons_of_mem c hd)) hlast hch.2
    refine ⟨r2, ?_, hlast2, ?_⟩
    · simp only [run, hstep]
      exact hrun
    · rw [hsum, hget, hP]
      simp only [history, hstep, energyOver, getPowerConsumption]
      ring

theorem trace_general (qs : List Request) :
    ∀ (r : UWBIRRadio), ∀ c ∈ trace r qs,
      (∃ s t, c = Call.switchTo s t) ∨ (∃ t, c = Call.endSwitch t) := by
  induction qs with
  | nil =>
    intro r c hc
    simp [trace] at hc
  | cons q qs ih =>
    intro r c hc
    simp only [trace, List.mem_append] at hc
    rcases hc with hc | hc
    · unfold Request.calls at hc
      split at hc
      · rw [List.mem_singleton] at hc
        exact Or.inl ⟨_, _, hc⟩
      · rw [List.mem_cons, List.mem_singleton] at hc
        rcases hc with hc | hc
        · exact Or.inl ⟨_, _, hc⟩
        · exact Or.inr ⟨_, hc⟩
    · split at hc
      · simp at hc
      · exact ih _ c hc

/-- C1: start from any radio with `lastStateChange = 0` and counter 0 (any
power table, switching-time matrix and state), and serve any sequence of
requests `switchTo(target, t)` with target in {RX, TX, SLEEP}, each non-no-op
request followed by its `endSwitch(t')` before the next one, the times of the
calls non-decreasing from 0 and not after `T`.  Then no call faults, the
accounting at time `T` succeeds, and the counter it stores equals the sum over
the realised state history on [0, T], SWITCHING intervals included, of
interval length times the power of the state held during the interval. -/
theorem counter_equals_history_sum (r : UWBIRRadio) (qs : List Request) (T : ℚ)
    (h0 : r.lastStateChange = 0) (hp : r.powerConsumption = 0)
    (_ht : ∀ q ∈ qs, q.target = RX ∨ q.target = TX ∨ q.target = SLEEP)
    (htime : List.Chain (· ≤ ·) 0 ((trace r qs).map Call.now ++ [T])) :
    ∃ r1 r2, run r (trace r qs) = some r1 ∧ updatePowerConsumption r1 T = some r2 ∧
      r2.powerConsumption =
        energyOver r.powerConsumptions r.state 0 (history r (trace r qs)) T := by
  obtain ⟨r1, hrun, hlast, hsum⟩ :=
    run_general (trace r qs) r 0 T (trace_general qs r) (le_of_eq h0) htime
  refine ⟨r1, _, hrun, updatePowerConsumption_of_le r1 T hlast, ?_⟩
  have h := hsum
  simp only [getPowerConsumption, hp, h0] at h
  simp only [h]
  ring

theorem scenario_trace :
    trace scenarioRadio scenarioRequests =
      [Call.switchTo TX 0, Call.endSwitch 5, Call.switchTo TX 6, Call.switchTo RX 8,
       Call.endSwitch 10] := by
  norm_num [trace, scenarioRequests, Request.calls, run, step, switchTo, reallySwitchTo,
    updatePowerConsumption, endSwitch, Radio.endSwitch, scenarioRadio, createNewUWBIRRadio,
    construct, Radio.construct, RX, TX, SLEEP, SWITCHING, SYNC]

theorem scenario_history :
    history scenarioRadio (trace scenarioRadio scenarioRequests) =
      [(0, SWITCHING), (5, TX), (6, TX), (8, SWITCHING), (10, SYNC)] := by
  rw [scenario_trace]
  norm_num [history, step, switchTo, reallySwitchTo, updatePowerConsumption, endSwitch,
    Radio.endSwitch, scenarioRadio, createNewUWBIRRadio, construct, Radio.construct,
    Call.now, RX, TX, SLEEP, SWITCHING, SYNC]

theorem scenario_history_sum :
    energyOver scenarioRadio.powerConsumptions scenarioRadio.state 0
      (history scenarioRadio (trace scenarioRadio scenarioRequests)) 12 = 410 := by
  rw [scenario_history]
  norm_num [energyOver, scenarioRadio, scenarioPower, createNewUWBIRRadio, construct,
    Radio.construct, RX, TX, SLEEP, SWITCHING, SYNC]

/-- Witness for C1: the three scenario requests on the scenario radio, read at
time 12 (the history sum is 410 there, see `scenario_history_sum`). -/
theorem counter_equals_history_sum_witness :
    ∃ r1 r2, run scenarioRadio (trace scenarioRadio scenarioRequests) = some r1 ∧
      updatePowerConsumption r1 12 = some r2 ∧
      r2.powerConsumption =
        energyOver scenarioRadio.powerConsumptions scenarioRadio.state 0
          (history scenarioRadio (trace scenarioRadio scenarioRequests)) 12 :=
  counter_equals_history_sum scenarioRadio scenarioRequests 12 rfl rfl (by decide)
    (by rw [scenario_trace]; norm_num [Call.now])

end UWBIRRadio

/-! ## What a successful call tells about its arguments -/

namespace UWBIRRadio

theorem le_of_updatePowerConsumption_some (r r1 : UWBIRRadio) (now : ℚ)
    (h : updatePowerConsumption r now = some r1) : r.lastStateChange ≤ now := by
  rcases lt_or_le now r.lastStateChange with hlt | hle
  · rw [updatePowerConsumption_of_lt r now hlt] at h
    cases h
  · exact hle

theorem endSwitch_of_lt (r : UWBIRRadio) (now : ℚ) (h : now < r.lastStateChange) :
    endSwitch r now = none := by
  unfold endSwitch
  rw [updatePowerConsumption_of_lt r now h]

theorem le_of_endSwitch_some (r r1 : UWBIRRadio) (now : ℚ)
    (h : endSwitch r now = some r1) : r.lastStateChange ≤ now := by
  rcases lt_or_le now r.lastStateChange with hlt | hle
  · rw [endSwitch_of_lt r now hlt] at h
    cases h
  · exact hle

theorem le_of_reallySwitchTo_some (r : UWBIRRadio) (newState : Int) (now : ℚ)
    (p : ℚ × UWBIRRadio) (h : reallySwitchTo r newState now = some p) :
    r.lastStateChange ≤ now := by
  rcases lt_or_le now r.lastStateChange with hlt | hle
  · rw [reallySwitchTo_of_lt r newState now hlt] at h
    cases h
  · exact hle

theorem of_startReceivingFrame_some (r r1 : UWBIRRadio) (now : ℚ)
    (h : startReceivingFrame r now = some r1) :
    r.state = SYNC ∧ r.lastStateChange ≤ now := by
  unfold startReceivingFrame at h
  by_cases hs : r.state = SYNC
  · rw [if_pos hs] at h
    have hle := le_of_endSwitch_some _ r1 now h
    exact ⟨hs, hle⟩
  · rw [if_neg hs] at h
    cases h

theorem of_finishReceivingFrame_some (r r1 : UWBIRRadio) (now : ℚ)
    (h : finishReceivingFrame r now = some r1) :
    r.state = RX ∧ r.lastStateChange ≤ now := by
  unfold finishReceivingFrame at h
  by_cases hs : r.state = RX
  · rw [if_pos hs] at h
    have hle := le_of_endSwitch_some _ r1 now h
    exact ⟨hs, hle⟩
  · rw [if_neg hs] at h
    cases h

/-- A call that completes either leaves the radio as it was, or has
`now >= lastStateChange` and adds `(now - lastStateChange)` times one entry of
the power table to the counter; the table itself is never written. -/
theorem step_some (r r1 : UWBIRRadio) (c : Call) (h : step r c = some r1) :
    r1.powerConsumptions = r.powerConsumptions ∧
    (r1 = r ∨ (r.lastStateChange ≤ c.now ∧ r1.lastStateChange = c.now ∧
      ∃ i, r1.powerConsumption =
        r.powerConsumption + (c.now - r.lastStateChange) * r.powerConsumptions i)) := by
  cases c with
  | switchTo s t =>
    by_cases hn : s = r.state ∨ (s = RX ∧ r.state = SYNC)
    · simp only [step, switchTo_noop r s t hn, Option.map_some'] at h
      cases h
      exact ⟨rfl, Or.inl rfl⟩
    · have hle : r.lastStateChange ≤ t := by
        simp only [step, switchTo_really r s t hn, Option.map_eq_some'] at h
        obtain ⟨p, hp, _⟩ := h
        exact le_of_reallySwitchTo_some r _ t p hp
      rw [step_switchTo_of_le r s t hn hle] at h
      cases h
      exact ⟨rfl, Or.inr ⟨hle, rfl, r.state, rfl⟩⟩
  | endSwitch t =>
    have hle := le_of_endSwitch_some r r1 t h
    simp only [step, endSwitch_of_le r t hle] at h
    cases h
    exact ⟨rfl, Or.inr ⟨hle, rfl, r.state, rfl⟩⟩
  | startReceivingFrame t =>
    obtain ⟨hs, hle⟩ := of_startReceivingFrame_some r r1 t h
    simp only [step, startReceivingFrame_of_le r t hs hle] at h
    cases h
    exact ⟨rfl, Or.inr ⟨hle, rfl, SWITCHING, rfl⟩⟩
  | finishReceivingFrame t =>
    obtain ⟨hs, hle⟩ := of_finishReceivingFrame_some r r1 t h
    simp only [step, finishReceivingFrame_of_le r t hs hle] at h
    cases h
    exact ⟨rfl, Or.inr ⟨hle, rfl, SWITCHING, rfl⟩⟩
  | updatePowerConsumption t =>
    have hle := le_of_updatePowerConsumption_some r r1 t h
    simp only [step, updatePowerConsumption_of_le r t hle] at h
    cases h
    exact ⟨rfl, Or.inr ⟨hle, rfl, r.state, rfl⟩⟩

theorem step_counter_le (r r1 : UWBIRRadio) (c : Call)
    (hP : ∀ i, 0 ≤ r.powerConsumptions i) (h : step r c = some r1) :
    r.powerConsumption ≤ r1.powerConsumption := by
  rcases (step_some r r1 c h).2 with rfl | ⟨hle, _, i, hi⟩
  · exact le_refl _
  · rw [hi]
    exact le_add_of_nonneg_right (mul_nonneg (sub_nonneg.mpr hle) (hP i))

theorem run_counter_le (cs : List Call) :
    ∀ (r r1 : UWBIRRadio), (∀ i, 0 ≤ r.powerConsumptions i) → run r cs = some r1 →
      r.powerConsumption ≤ r1.powerConsumption := by
  induction cs with
  | nil =>
    intro r r1 _ h
    simp only [run] at h
    cases h
    exact le_refl _
  | cons c cs ih =>
    intro r r1 hP h
    simp only [run] at h
    cases hs : step r c with
    | none =>
      rw [hs] at h
      cases h
    | some r2 =>
      rw [hs] at h
      have hP2 : ∀ i, 0 ≤ r2.powerConsumptions i := by
        rw [(step_some r r2 c hs).1]
        exact hP
      exact le_trans (step_counter_le r r2 c hP hs) (ih r2 r1 hP2 h)

end UWBIRRadio

/-! ## Configuration, monotonicity and the accounting clock -/

namespace UWBIRRadio

theorem scenarioPower_nonneg (i : Int) : 0 ≤ scenarioPower i := by
  unfold scenarioPower
  split_ifs <;> norm_num

theorem scenario_calls_run : ∃ r1, run scenarioRadio scenarioCalls = some r1 := by
  have h : (run scenarioRadio scenarioCalls).isSome = true := by
    norm_num [scenarioCalls, run, step, switchTo, reallySwitchTo, updatePowerConsumption,
      endSwitch, Radio.endSwitch, startReceivingFrame, finishReceivingFrame, scenarioRadio,
      createNewUWBIRRadio, construct, Radio.construct, RX, TX, SLEEP, SWITCHING, SYNC]
  exact Option.isSome_iff_exists.mp h

/-- C11: `setPowerConsumption(radioState, value)` faults if and only if
`radioState < 0` or `radioState >= numRadioStates`; with the index in range it
succeeds, the entry at `radioState` is `value` afterwards, and every other
entry, `state`, `nextState`, the counter and `lastStateChange` are
unchanged. -/
theorem setPowerConsumption_faults_iff_out_of_range (r : UWBIRRadio) (i : Int) (v : ℚ) :
    (setPowerConsumption r i v = none ↔ i < 0 ∨ r.numRadioStates ≤ i) ∧
    (0 ≤ i → i < r.numRadioStates →
      ∃ r1, setPowerConsumption r i v = some r1 ∧ r1.powerConsumptions i = v ∧
        (∀ j, j ≠ i → r1.powerConsumptions j = r.powerConsumptions j) ∧
        r1.state = r.state ∧ r1.nextState = r.nextState ∧
        r1.powerConsumption = r.powerConsumption ∧
        r1.lastStateChange = r.lastStateChange) := by
  constructor
  · unfold setPowerConsumption
    by_cases h0 : 0 ≤ i
    · by_cases h1 : i < r.numRadioStates
      · rw [if_pos h0, if_pos h1]
        constructor
        · intro h
          cases h
        · rintro (h | h)
          · exact absurd h0 (not_le.mpr h)
          · exact absurd h1 (not_lt.mpr h)
      · rw [if_pos h0, if_neg h1]
        exact ⟨fun _ => Or.inr (not_lt.mp h1), fun _ => rfl⟩
    · rw [if_neg h0]
      exact ⟨fun _ => Or.inl (not_le.mp h0), fun _ => rfl⟩
  · intro h0 h1
    have h : setPowerConsumption r i v = some { r with
        powerConsumptions := fun j => if j = i then v else r.powerConsumptions j } := by
      unfold setPowerConsumption
      rw [if_pos h0, if_pos h1]
    refine ⟨_, h, ?_, ?_, rfl, rfl, rfl, rfl⟩
    · show (if i = i then v else r.powerConsumptions i) = v
      rw [if_pos rfl]
    · intro j hj
      show (if j = i then v else r.powerConsumptions j) = r.powerConsumptions j
      rw [if_neg hj]

/-- Witness for C11: on the scenario radio (five states) index 5 faults, and
index 3 takes the value 12 while the other members stay. -/
theorem setPowerConsumption_faults_iff_out_of_range_witness :
    setPowerConsumption scenarioRadio 5 12 = none ∧
    ∃ r1, setPowerConsumption scenarioRadio 3 12 = some r1 ∧ r1.powerConsumptions 3 = 12 ∧
      (∀ j, j ≠ 3 → r1.powerConsumptions j = scenarioRadio.powerConsumptions j) ∧
      r1.state = scenarioRadio.state ∧ r1.nextState = scenarioRadio.nextState ∧
      r1.powerConsumption = scenarioRadio.powerConsumption ∧
      r1.lastStateChange = scenarioRadio.lastStateChange :=
  ⟨(setPowerConsumption_faults_iff_out_of_range scenarioRadio 5 12).1.mpr
      (Or.inr (by decide)),
   (setPowerConsumption_faults_iff_out_of_range scenarioRadio 3 12).2
      (by decide) (by decide)⟩

/-- C13: if every entry of the power table is non-negative, every call that
completes without a fault (`switchTo`, `endSwitch`, `startReceivingFrame`,
`finishReceivingFrame`, `updatePowerConsumption`) leaves the counter greater
than or equal to its value before the call, and so does every sequence of
such calls. -/
theorem counter_never_decreases (r : UWBIRRadio)
    (hP : ∀ i, 0 ≤ r.powerConsumptions i) :
    (∀ (c : Call) (r1 : UWBIRRadio), step r c = some r1 →
      r.powerConsumption ≤ r1.powerConsumption) ∧
    (∀ (cs : List Call) (r1 : UWBIRRadio), run r cs = some r1 →
      r.powerConsumption ≤ r1.powerConsumption) :=
  ⟨fun c r1 h => step_counter_le r r1 c hP h, fun cs r1 h => run_counter_le cs r r1 hP h⟩

/-- Witness for C13: the six scenario calls complete on the scenario radio and
the counter has not decreased. -/
theorem counter_never_decreases_witness :
    ∃ r1, run scenarioRadio scenarioCalls = some r1 ∧
      scenarioRadio.powerConsumption ≤ r1.powerConsumption :=
  scenario_calls_run.elim fun r1 h =>
    ⟨r1, h, (counter_never_decreases scenarioRadio scenarioPower_nonneg).2 scenarioCalls r1 h⟩

end UWBIRRadio

namespace UWBIRRadio

theorem startReceivingFrame_of_lt (r : UWBIRRadio) (now : ℚ)
    (h : now < r.lastStateChange) : startReceivingFrame r now = none := by
  unfold startReceivingFrame
  split
  · exact endSwitch_of_lt _ now h
  · rfl

theorem finishReceivingFrame_of_lt (r : UWBIRRadio) (now : ℚ)
    (h : now < r.lastStateChange) : finishReceivingFrame r now = none := by
  unfold finishReceivingFrame
  split
  · exact endSwitch_of_lt _ now h
  · rfl

/-- C14, as stated, fails for the frame notifications: on the scenario radio
in TX, `startReceivingFrame(3)` has `now >= lastStateChange` and still faults
(on its state assertion), and so does `finishReceivingFrame(3)` on the
scenario radio in SYNC; neither ends with `lastStateChange == now`. -/
theorem frame_notification_faults_with_time_in_order :
    (scenarioIn TX).lastStateChange ≤ 3 ∧ startReceivingFrame (scenarioIn TX) 3 = none ∧
    scenarioRadio.lastStateChange ≤ 3 ∧ finishReceivingFrame scenarioRadio 3 = none := by
  refine ⟨by norm_num [scenarioIn, scenarioRadio, createNewUWBIRRadio, construct], ?_,
    by norm_num [scenarioRadio, createNewUWBIRRadio, construct], ?_⟩
  · unfold startReceivingFrame
    rw [if_neg (by decide)]
  · unfold finishReceivingFrame
    rw [if_neg (by decide)]

/-- C14, amended: `updatePowerConsumption(now)` faults if and only if
`now < lastStateChange`, and when it succeeds `lastStateChange == now`.  With
`now < lastStateChange` every non-no-op `switchTo`, every `endSwitch` and both
frame notifications fault.  With `now >= lastStateChange` every non-no-op
`switchTo` and every `endSwitch` succeed and end with `lastStateChange == now`,
and so does `startReceivingFrame` when `state == SYNC` and
`finishReceivingFrame` when `state == RX`. -/
theorem accounting_clock_never_goes_back (r : UWBIRRadio) (now : ℚ) :
    (updatePowerConsumption r now = none ↔ now < r.lastStateChange) ∧
    (∀ r1, updatePowerConsumption r now = some r1 → r1.lastStateChange = now) ∧
    (now < r.lastStateChange →
      (∀ s, ¬ (s = r.state ∨ (s = RX ∧ r.state = SYNC)) → switchTo r s now = none) ∧
      endSwitch r now = none ∧ startReceivingFrame r now = none ∧
      finishReceivingFrame r now = none) ∧
    (r.lastStateChange ≤ now →
      (∀ s, ¬ (s = r.state ∨ (s = RX ∧ r.state = SYNC)) →
        ∃ d r1, switchTo r s now = some (d, r1) ∧ r1.lastStateChange = now) ∧
      (∃ r1, endSwitch r now = some r1 ∧ r1.lastStateChange = now) ∧
      (r.state = SYNC →
        ∃ r1, startReceivingFrame r now = some r1 ∧ r1.lastStateChange = now) ∧
      (r.state = RX →
        ∃ r1, finishReceivingFrame r now = some r1 ∧ r1.lastStateChange = now)) := by
  refine ⟨⟨fun h => ?_, fun h => updatePowerConsumption_of_lt r now h⟩, fun r1 h => ?_,
    fun hlt => ⟨fun s hn => ?_, endSwitch_of_lt r now hlt, startReceivingFrame_of_lt r now hlt,
      finishReceivingFrame_of_lt r now hlt⟩,
    fun hle => ⟨fun s hn => ?_, ⟨_, endSwitch_of_le r now hle, rfl⟩,
      fun hs => ⟨_, startReceivingFrame_of_le r now hs hle, rfl⟩,
      fun hs => ⟨_, finishReceivingFrame_of_le r now hs hle, rfl⟩⟩⟩
  · rcases lt_or_le now r.lastStateChange with hlt | hle
    · exact hlt
    · rw [updatePowerConsumption_of_le r now hle] at h
      cases h
  · have hle := le_of_updatePowerConsumption_some r r1 now h
    rw [updatePowerConsumption_of_le r now hle] at h
    cases h
    rfl
  · rw [switchTo_really r s now hn]
    exact reallySwitchTo_of_lt r _ now hlt
  · exact ⟨_, _, (switchTo_really r s now hn).trans (reallySwitchTo_of_le r _ now hle), rfl⟩

/-- Witness for the amended C14: the late radio (last accounting at 5) faults
at time 3, and the scenario radio locks on a frame at time 3 and then has
`lastStateChange == 3`. -/
theorem accounting_clock_never_goes_back_witness :
    endSwitch scenarioLate 3 = none ∧
    ∃ r1, startReceivingFrame scenarioRadio 3 = some r1 ∧ r1.lastStateChange = 3 :=
  ⟨((accounting_clock_never_goes_back scenarioLate 3).2.2.1
      (by norm_num [scenarioLate])).2.1,
   ((accounting_clock_never_goes_back scenarioRadio 3).2.2.2
      (by norm_num [scenarioRadio, createNewUWBIRRadio, construct])).2.2.1 rfl⟩

end UWBIRRadio

/-! ## The statistics channels, overlapping requests and the frame rate -/

namespace UWBIRRadio

/-- C15, as stated, fails on the scenario radio in TX: the non-no-op
`switchTo(RX, 4)` records the value 3 (SWITCHING) on the radio-state channel,
not the outgoing state 1 (TX). -/
theorem switchTo_records_SWITCHING_not_outgoing :
    (scenarioIn TX).state = TX ∧ (scenarioIn TX).radioStates = [] ∧
    ∃ d r1, switchTo (scenarioIn TX) RX 4 = some (d, r1) ∧
      r1.radioStates = [SWITCHING] ∧ r1.radioStates ≠ [(scenarioIn TX).state] := by
  have h := (switchTo_really (scenarioIn TX) RX 4 (by decide)).trans
    (reallySwitchTo_of_le (scenarioIn TX) _ 4
      (by norm_num [scenarioIn, scenarioRadio, createNewUWBIRRadio, construct]))
  refine ⟨rfl, rfl, _, _, h, rfl, ?_⟩
  show ([] ++ [SWITCHING] : List Int) ≠ [TX]
  decide

/-- C15, amended: on every non-no-op `switchTo(target, now)` with
`now >= lastStateChange`, exactly one value is recorded to the radio-state
channel, and it is SWITCHING, the state being entered (`state` is recorded
after it has been overwritten). -/
theorem switchTo_records_SWITCHING (r : UWBIRRadio) (target : Int) (now : ℚ)
    (hn : ¬ (target = r.state ∨ (target = RX ∧ r.state = SYNC)))
    (hnow : r.lastStateChange ≤ now) :
    ∃ d r1, switchTo r target now = some (d, r1) ∧
      r1.radioStates = r.radioStates ++ [SWITCHING] :=
  ⟨_, _, (switchTo_really r target now hn).trans (reallySwitchTo_of_le r _ now hnow), rfl⟩

/-- Witness for the amended C15: the scenario radio in TX asked for SLEEP at
time 4. -/
theorem switchTo_records_SWITCHING_witness :
    ∃ d r1, switchTo (scenarioIn TX) SLEEP 4 = some (d, r1) ∧
      r1.radioStates = (scenarioIn TX).radioStates ++ [SWITCHING] :=
  switchTo_records_SWITCHING (scenarioIn TX) SLEEP 4 (by decide)
    (by norm_num [scenarioIn, scenarioRadio, createNewUWBIRRadio, construct])

/-- C16, as stated, fails in two ways.  On the scenario radio at time 0 (kernel
clock 0) the sample appended by `updatePowerConsumption(0)` has divisor 0 and
so no value.  On the radio whose kernel clock shows 7, `updatePowerConsumption(5)`
appends 500/7, the new counter divided by the clock, not 500/5, the new counter
divided by the argument. -/
theorem sample_is_not_counter_over_now :
    (∃ r1, updatePowerConsumption scenarioRadio 0 = some r1 ∧
      r1.vectorPower = [(0, 0)] ∧ sampleValue (0, 0) = none) ∧
    (∃ r1, updatePowerConsumption scenarioClock7 5 = some r1 ∧
      r1.powerConsumption = 500 ∧ r1.vectorPower = [(500, 7)] ∧
      sampleValue (500, 7) = some (500 / 7) ∧ (500 / 7 : ℚ) ≠ 500 / 5) := by
  refine ⟨⟨_, updatePowerConsumption_of_le scenarioRadio 0 (le_refl _), ?_, ?_⟩,
    ⟨_, updatePowerConsumption_of_le scenarioClock7 5 (by norm_num [scenarioClock7,
      scenarioRadio, createNewUWBIRRadio, construct]), ?_, ?_, ?_, ?_⟩⟩
  · norm_num [scenarioRadio, scenarioPower, createNewUWBIRRadio, construct,
      Radio.construct, RX, TX, SLEEP, SWITCHING, SYNC]
  · norm_num [sampleValue]
  · norm_num [scenarioClock7, scenarioRadio, scenarioPower, createNewUWBIRRadio, construct,
      Radio.construct, RX, TX, SLEEP, SWITCHING, SYNC]
  · norm_num [scenarioClock7, scenarioRadio, scenarioPower, createNewUWBIRRadio, construct,
      Radio.construct, RX, TX, SLEEP, SWITCHING, SYNC]
  · norm_num [sampleValue]
  · norm_num

/-- C16, amended: for every radio and every `now >= lastStateChange`,
`updatePowerConsumption(now)` appends to the statistics sink exactly one
sample, whose dividend is the new counter and whose divisor is the kernel
clock `simTime()`; when the clock is not zero the sample has the value new
counter divided by the clock, which is the new counter divided by `now`
whenever the caller passes the current simulation time as `now`. -/
theorem sample_is_counter_over_clock (r : UWBIRRadio) (now : ℚ)
    (hnow : r.lastStateChange ≤ now) :
    ∃ r1, updatePowerConsumption r now = some r1 ∧
      r1.vectorPower = r.vectorPower ++ [(r1.powerConsumption, r.simTime)] ∧
      (r.simTime ≠ 0 →
        sampleValue (r1.powerConsumption, r.simTime) =
          some (r1.powerConsumption / r.simTime)) ∧
      (r.simTime ≠ 0 → r.simTime = now →
        sampleValue (r1.powerConsumption, r.simTime) = some (r1.powerConsumption / now)) := by
  refine ⟨_, updatePowerConsumption_of_le r now hnow, rfl, fun h => ?_, fun h hc => ?_⟩
  · unfold sampleValue
    rw [if_neg h]
  · unfold sampleValue
    rw [if_neg h, hc]

/-- Witness for the amended C16: the radio whose clock shows 7, accounted at
time 7. -/
theorem sample_is_counter_over_clock_witness :
    ∃ r1, updatePowerConsumption scenarioClock7 7 = some r1 ∧
      r1.vectorPower = scenarioClock7.vectorPower ++ [(r1.powerConsumption, 7)] ∧
      sampleValue (r1.powerConsumption, 7) = some (r1.powerConsumption / 7) :=
  (sample_is_counter_over_clock scenarioClock7 7
    (by norm_num [scenarioClock7, scenarioRadio, createNewUWBIRRadio, construct])).elim
    fun r1 h => ⟨r1, h.1, h.2.1, h.2.2.2 (by norm_num [scenarioClock7]) rfl⟩

end UWBIRRadio

namespace UWBIRRadio

theorem scenarioSwTimes_nonneg (i j : Int) : 0 ≤ scenarioSwTimes i j := by
  unfold scenarioSwTimes
  split_ifs <;> norm_num

/-- C17: for a radio with `state == SWITCHING`, every target in {RX, TX, SLEEP}
and every `now >= lastStateChange`, `switchTo(target, now)` does not fault and
does not take the nothing-to-do branch (the radio it leaves differs from the
one it met): it overwrites `nextState` with the new target (SYNC for RX),
whatever was pending before, keeps `state == SWITCHING`, and returns
`swTimes[SWITCHING][nextState]`, which is not `-1` when that entry is a
non-negative duration, as the data model has it. -/
theorem switchTo_while_SWITCHING_is_unguarded (r : UWBIRRadio) (target : Int) (now : ℚ)
    (hs : r.state = SWITCHING)
    (ht : target = RX ∨ target = TX ∨ target = SLEEP)
    (hnow : r.lastStateChange ≤ now) :
    ∃ d r1, switchTo r target now = some (d, r1) ∧ r1 ≠ r ∧
      r1.nextState = (if target = RX then SYNC else target) ∧
      r1.state = SWITCHING ∧ d = r.swTimes SWITCHING r1.nextState ∧
      (0 ≤ r.swTimes SWITCHING r1.nextState → d ≠ -1) := by
  have hn : ¬ (target = r.state ∨ (target = RX ∧ r.state = SYNC)) := by
    rw [hs]
    rcases ht with h | h | h <;> rw [h] <;> decide
  have h := (switchTo_really r target now hn).trans (reallySwitchTo_of_le r _ now hnow)
  refine ⟨_, _, h, ?_, rfl, rfl, ?_, ?_⟩
  · intro hr
    have hl := congrArg UWBIRRadio.radioStates hr
    simp at hl
  · rw [hs]
  · intro h0 hd
    rw [hs] at hd
    rw [hd] at h0
    norm_num at h0

/-- Witness for C17: the scenario radio in SWITCHING (SYNC pending) is asked
for SLEEP at time 4. -/
theorem switchTo_while_SWITCHING_is_unguarded_witness :
    ∃ d r1, switchTo (scenarioIn SWITCHING) SLEEP 4 = some (d, r1) ∧ d ≠ -1 ∧
      r1.nextState = SLEEP ∧ r1.state = SWITCHING ∧
      d = (scenarioIn SWITCHING).swTimes SWITCHING SLEEP :=
  (switchTo_while_SWITCHING_is_unguarded (scenarioIn SWITCHING) SLEEP 4 rfl
    (Or.inr (Or.inr rfl))
    (by norm_num [scenarioIn, scenarioRadio, createNewUWBIRRadio, construct])).elim
    fun d h => h.elim fun r1 h1 =>
      have hnext : r1.nextState = SLEEP := h1.2.2.1.trans (if_neg (by decide))
      ⟨d, r1, h1.1, h1.2.2.2.2.2 (scenarioSwTimes_nonneg _ _), hnext, h1.2.2.2.1,
        hnext ▸ h1.2.2.2.2.1⟩

/-- C19: for a radio in SYNC (resp. RX) with `lastStateChange <= now`,
`startReceivingFrame(now)` (resp. `finishReceivingFrame(now)`) succeeds and
increases the counter by exactly
`(now - lastStateChange) * powerConsumptions[SWITCHING]`; the increase is the
same for every other power table with the same SWITCHING entry, whatever its
SYNC and RX entries are. -/
theorem frame_notifications_charge_SWITCHING_rate (r : UWBIRRadio) (now : ℚ)
    (hnow : r.lastStateChange ≤ now) :
    (r.state = SYNC →
      ∃ r1, startReceivingFrame r now = some r1 ∧
        r1.powerConsumption =
          r.powerConsumption + (now - r.lastStateChange) * r.powerConsumptions SWITCHING ∧
        ∀ P : Int → ℚ, P SWITCHING = r.powerConsumptions SWITCHING →
          ∃ r2, startReceivingFrame { r with powerConsumptions := P } now = some r2 ∧
            r2.powerConsumption = r1.powerConsumption) ∧
    (r.state = RX →
      ∃ r1, finishReceivingFrame r now = some r1 ∧
        r1.powerConsumption =
          r.powerConsumption + (now - r.lastStateChange) * r.powerConsumptions SWITCHING ∧
        ∀ P : Int → ℚ, P SWITCHING = r.powerConsumptions SWITCHING →
          ∃ r2, finishReceivingFrame { r with powerConsumptions := P } now = some r2 ∧
            r2.powerConsumption = r1.powerConsumption) := by
  constructor
  · intro hs
    refine ⟨_, startReceivingFrame_of_le r now hs hnow, rfl, fun P hP => ?_⟩
    refine ⟨_, startReceivingFrame_of_le { r with powerConsumptions := P } now hs hnow, ?_⟩
    show r.powerConsumption + (now - r.lastStateChange) * P SWITCHING = _
    rw [hP]
  · intro hs
    refine ⟨_, finishReceivingFrame_of_le r now hs hnow, rfl, fun P hP => ?_⟩
    refine ⟨_, finishReceivingFrame_of_le { r with powerConsumptions := P } now hs hnow, ?_⟩
    show r.powerConsumption + (now - r.lastStateChange) * P SWITCHING = _
    rw [hP]

/-- Witness for C19: the scenario radio in SYNC locks on a frame at time 3 and
the scenario radio in RX finishes one at time 10. -/
theorem frame_notifications_charge_SWITCHING_rate_witness :
    (∃ r1, startReceivingFrame scenarioRadio 3 = some r1 ∧
      r1.powerConsumption =
        scenarioRadio.powerConsumption +
          (3 - scenarioRadio.lastStateChange) * scenarioRadio.powerConsumptions SWITCHING ∧
      ∀ P : Int → ℚ, P SWITCHING = scenarioRadio.powerConsumptions SWITCHING →
        ∃ r2, startReceivingFrame { scenarioRadio with powerConsumptions := P } 3 = some r2 ∧
          r2.powerConsumption = r1.powerConsumption) ∧
    (∃ r1, finishReceivingFrame (scenarioIn RX) 10 = some r1 ∧
      r1.powerConsumption =
        (scenarioIn RX).powerConsumption +
          (10 - (scenarioIn RX).lastStateChange) *
            (scenarioIn RX).powerConsumptions SWITCHING ∧
      ∀ P : Int → ℚ, P SWITCHING = (scenarioIn RX).powerConsumptions SWITCHING →
        ∃ r2, finishReceivingFrame { scenarioIn RX with powerConsumptions := P } 10 =
            some r2 ∧
          r2.powerConsumption = r1.powerConsumption) :=
  ⟨(frame_notifications_charge_SWITCHING_rate scenarioRadio 3
      (by norm_num [scenarioRadio, createNewUWBIRRadio, construct])).1 rfl,
   (frame_notifications_charge_SWITCHING_rate (scenarioIn RX) 10
      (by norm_num [scenarioIn, scenarioRadio, createNewUWBIRRadio, construct])).2 rfl⟩

end UWBIRRadio

/-! ## The state index stays in range -/

namespace UWBIRRadio

/-- What a call that completes leaves in `state` and `nextState`. -/
theorem step_states (r r1 : UWBIRRadio) (c : Call) (h : step r c = some r1) :
    r1.numRadioStates = r.numRadioStates ∧
    match c with
    | .switchTo s _ =>
      (r1.state = r.state ∧ r1.nextState = r.nextState) ∨
      (r1.state = SWITCHING ∧ r1.nextState = if s = RX then SYNC else s)
    | .endSwitch _ => r1.state = r.nextState ∧ r1.nextState = r.nextState
    | .startReceivingFrame _ => r1.state = RX ∧ r1.nextState = RX
    | .finishReceivingFrame _ => r1.state = SYNC ∧ r1.nextState = SYNC
    | .updatePowerConsumption _ => r1.state = r.state ∧ r1.nextState = r.nextState := by
  cases c with
  | switchTo s t =>
    by_cases hn : s = r.state ∨ (s = RX ∧ r.state = SYNC)
    · simp only [step, switchTo_noop r s t hn, Option.map_some'] at h
      cases h
      exact ⟨rfl, Or.inl ⟨rfl, rfl⟩⟩
    · have hle : r.lastStateChange ≤ t := by
        simp only [step, switchTo_really r s t hn, Option.map_eq_some'] at h
        obtain ⟨p, hp, _⟩ := h
        exact le_of_reallySwitchTo_some r _ t p hp
      rw [step_switchTo_of_le r s t hn hle] at h
      cases h
      exact ⟨rfl, Or.inr ⟨rfl, rfl⟩⟩
  | endSwitch t =>
    have hle := le_of_endSwitch_some r r1 t h
    simp only [step, endSwitch_of_le r t hle] at h
    cases h
    exact ⟨rfl, rfl, rfl⟩
  | startReceivingFrame t =>
    obtain ⟨hs, hle⟩ := of_startReceivingFrame_some r r1 t h
    simp only [step, startReceivingFrame_of_le r t hs hle] at h
    cases h
    exact ⟨rfl, rfl, rfl⟩
  | finishReceivingFrame t =>
    obtain ⟨hs, hle⟩ := of_finishReceivingFrame_some r r1 t h
    simp only [step, finishReceivingFrame_of_le r t hs hle] at h
    cases h
    exact ⟨rfl, rfl, rfl⟩
  | updatePowerConsumption t =>
    have hle := le_of_updatePowerConsumption_some r r1 t h
    simp only [step, updatePowerConsumption_of_le r t hle] at h
    cases h
    exact ⟨rfl, rfl, rfl⟩

theorem step_in_range (r r1 : UWBIRRadio) (c : Call)
    (hinv : 0 ≤ r.state ∧ r.state < NUM_RADIO_STATES ∧
      (r.state = SWITCHING → 0 ≤ r.nextState ∧ r.nextState < NUM_RADIO_STATES))
    (hc : admissible r c = true) (h : step r c = some r1) :
    0 ≤ r1.state ∧ r1.state < NUM_RADIO_STATES ∧
      (r1.state = SWITCHING → 0 ≤ r1.nextState ∧ r1.nextState < NUM_RADIO_STATES) := by
  have hst := (step_states r r1 c h).2
  cases c with
  | switchTo s t =>
    simp only [admissible, decide_eq_true_eq] at hc
    rcases hst with ⟨h1, h2⟩ | ⟨h1, h2⟩
    · rw [h1, h2]
      exact hinv
    · rw [h1, h2]
      rcases hc with hs | hs | hs <;> rw [hs] <;> decide
  | endSwitch t =>
    simp only [admissible, decide_eq_true_eq] at hc
    obtain ⟨h1, h2⟩ := hst
    have hn := hinv.2.2 hc
    rw [h1, h2]
    exact ⟨hn.1, hn.2, fun _ => hn⟩
  | startReceivingFrame t =>
    obtain ⟨h1, h2⟩ := hst
    rw [h1, h2]
    decide
  | finishReceivingFrame t =>
    obtain ⟨h1, h2⟩ := hst
    rw [h1, h2]
    decide
  | updatePowerConsumption t =>
    obtain ⟨h1, h2⟩ := hst
    rw [h1, h2]
    exact hinv

theorem indices_in_range (r : UWBIRRadio) (c : Call)
    (hnum : r.numRadioStates = NUM_RADIO_STATES)
    (hinv : 0 ≤ r.state ∧ r.state < NUM_RADIO_STATES ∧
      (r.state = SWITCHING → 0 ≤ r.nextState ∧ r.nextState < NUM_RADIO_STATES))
    (hc : admissible r c = true) :
    (indicesRead r c).all (fun i => decide (0 ≤ i ∧ i < r.numRadioStates)) = true := by
  rw [hnum, List.all_eq_true]
  intro i hi
  rw [decide_eq_true_eq]
  cases c with
  | switchTo s t =>
    simp only [admissible, decide_eq_true_eq] at hc
    simp only [indicesRead] at hi
    split at hi
    · cases hi
    · simp only [List.mem_cons, List.mem_singleton, List.not_mem_nil, or_false] at hi
      rcases hi with hi | hi | hi
      · rw [hi]
        exact ⟨hinv.1, hinv.2.1⟩
      · rw [hi]
        exact ⟨hinv.1, hinv.2.1⟩
      · rw [hi]
        rcases hc with hs | hs | hs <;> rw [hs] <;> decide
  | endSwitch t =>
    simp only [indicesRead, List.mem_singleton] at hi
    rw [hi]
    exact ⟨hinv.1, hinv.2.1⟩
  | startReceivingFrame t =>
    simp only [indicesRead] at hi
    split at hi
    · rw [List.mem_singleton] at hi
      rw [hi]
      decide
    · cases hi
  | finishReceivingFrame t =>
    simp only [indicesRead] at hi
    split at hi
    · rw [List.mem_singleton] at hi
      rw [hi]
      decide
    · cases hi
  | updatePowerConsumption t =>
    simp only [indicesRead, List.mem_singleton] at hi
    rw [hi]
    exact ⟨hinv.1, hinv.2.1⟩

theorem run_in_range (cs : List Call) :
    ∀ r : UWBIRRadio, r.numRadioStates = NUM_RADIO_STATES →
      (0 ≤ r.state ∧ r.state < NUM_RADIO_STATES ∧
        (r.state = SWITCHING → 0 ≤ r.nextState ∧ r.nextState < NUM_RADIO_STATES)) →
      admissibleRun r cs = true →
      lookupsInBounds r cs = true ∧
      ∀ r1, run r cs = some r1 →
        0 ≤ r1.state ∧ r1.state < NUM_RADIO_STATES ∧
          (r1.state = SWITCHING → 0 ≤ r1.nextState ∧ r1.nextState < NUM_RADIO_STATES) := by
  induction cs with
  | nil =>
    intro r _ hinv _
    refine ⟨rfl, fun r1 h => ?_⟩
    simp only [run] at h
    cases h
    exact hinv
  | cons c cs ih =>
    intro r hnum hinv hadm
    simp only [admissibleRun, Bool.and_eq_true] at hadm
    obtain ⟨hc, hrest⟩ := hadm
    have hidx := indices_in_range r c hnum hinv hc
    cases hs : step r c with
    | none =>
      refine ⟨?_, fun r1 h => ?_⟩
      · simp only [lookupsInBounds, hidx, hs, Bool.and_self]
      · simp only [run, hs] at h
        cases h
    | some r2 =>
      rw [hs] at hrest
      have hnum2 : r2.numRadioStates = NUM_RADIO_STATES :=
        (step_states r r2 c hs).1.trans hnum
      obtain ⟨hb, hfin⟩ := ih r2 hnum2 (step_in_range r r2 c hinv hc hs) hrest
      refine ⟨?_, fun r1 h => ?_⟩
      · simp only [lookupsInBounds, hidx, hs, hb, Bool.and_self]
      · simp only [run, hs] at h
        exact hfin r1 h

end UWBIRRadio

namespace UWBIRRadio

/-- C18: take a radio with `numRadioStates = NUM_RADIO_STATES` (5) whose state
is one of RX, TX, SLEEP, SYNC, as the factory leaves it, and any sequence of
`switchTo`, `endSwitch`, `startReceivingFrame` and `finishReceivingFrame` calls
(accounting calls may be interleaved) in which every `switchTo` target is in
{RX, TX, SLEEP} and `endSwitch` is called only while `state == SWITCHING`.
Then every index read from `powerConsumptions` and `swTimes` by every call lies
in `0 .. numRadioStates - 1`, and if the sequence completes, `0 <= state < 5`
afterwards, and `0 <= nextState < 5` whenever `state == SWITCHING`. -/
theorem state_index_stays_in_range (r : UWBIRRadio) (cs : List Call)
    (hnum : r.numRadioStates = NUM_RADIO_STATES)
    (hinit : r.state = RX ∨ r.state = TX ∨ r.state = SLEEP ∨ r.state = SYNC)
    (hadm : admissibleRun r cs = true) :
    lookupsInBounds r cs = true ∧
    ∀ r1, run r cs = some r1 →
      0 ≤ r1.state ∧ r1.state < 5 ∧
        (r1.state = SWITCHING → 0 ≤ r1.nextState ∧ r1.nextState < 5) := by
  have hinv : 0 ≤ r.state ∧ r.state < NUM_RADIO_STATES ∧
      (r.state = SWITCHING → 0 ≤ r.nextState ∧ r.nextState < NUM_RADIO_STATES) := by
    rcases hinit with h | h | h | h <;> rw [h] <;>
      exact ⟨by decide, by decide, fun hc => absurd hc (by decide)⟩
  exact run_in_range cs r hnum hinv hadm

/-- Witness for C18: the six scenario calls on the scenario radio, which the
factory created in SYNC with five states. -/
theorem state_index_stays_in_range_witness :
    lookupsInBounds scenarioRadio scenarioCalls = true ∧
    ∃ r1, run scenarioRadio scenarioCalls = some r1 ∧
      0 ≤ r1.state ∧ r1.state < 5 ∧
        (r1.state = SWITCHING → 0 ≤ r1.nextState ∧ r1.nextState < 5) :=
  have h := state_index_stays_in_range scenarioRadio scenarioCalls rfl
    (Or.inr (Or.inr (Or.inr rfl)))
    (by norm_num [scenarioCalls, admissibleRun, admissible, step, switchTo, reallySwitchTo,
      updatePowerConsumption, endSwitch, Radio.endSwitch, startReceivingFrame,
      finishReceivingFrame, scenarioRadio, createNewUWBIRRadio, construct, Radio.construct,
      RX, TX, SLEEP, SWITCHING, SYNC])
  ⟨h.1, scenario_calls_run.elim fun r1 hr => ⟨r1, hr, h.2 r1 hr⟩⟩

end UWBIRRadio

/-! ## No direct entry into RX through the general interface -/

namespace UWBIRRadio

theorem run_append (a b : List Call) :
    ∀ r : UWBIRRadio, run r (a ++ b) = (run r a).bind (fun r1 => run r1 b) := by
  induction a with
  | nil =>
    intro r
    rfl
  | cons c a ih =>
    intro r
    simp only [List.cons_append, run]
    cases step r c with
    | none => rfl
    | some r1 => exact ih r1

theorem history_append (a b : List Call) :
    ∀ r : UWBIRRadio, history r (a ++ b) =
      history r a ++ (match run r a with
        | none => []
        | some r1 => history r1 b) := by
  induction a with
  | nil =>
    intro r
    rfl
  | cons c a ih =>
    intro r
    simp only [List.cons_append, history, run]
    cases step r c with
    | none => rfl
    | some r1 => exact congrArg (List.cons (c.now, r1.state)) (ih r1)

theorem rewritten_target_ne_RX (s : Int) : (if s = RX then SYNC else s) ≠ RX := by
  split
  · decide
  · assumption

theorem step_switchTo_really_states (r ra : UWBIRRadio) (s : Int) (t : ℚ)
    (hn : ¬ (s = r.state ∨ (s = RX ∧ r.state = SYNC)))
    (h : step r (Call.switchTo s t) = some ra) :
    ra.state = SWITCHING ∧ ra.nextState = (if s = RX then SYNC else s) := by
  have hle : r.lastStateChange ≤ t := by
    simp only [step, switchTo_really r s t hn, Option.map_eq_some'] at h
    obtain ⟨p, hp, _⟩ := h
    exact le_of_reallySwitchTo_some r _ t p hp
  rw [step_switchTo_of_le r s t hn hle] at h
  cases h
  exact ⟨rfl, rfl⟩

/-- One request on a radio that is not in RX: every state of its history is
different from RX, and so is the state it ends in. -/
theorem request_stays_out_of_RX (r : UWBIRRadio) (q : Request) (hr : r.state ≠ RX) :
    (∀ p ∈ history r (q.calls r), p.2 ≠ RX) ∧
    (∀ r1, run r (q.calls r) = some r1 → r1.state ≠ RX) := by
  unfold Request.calls
  by_cases hn : q.target = r.state ∨ (q.target = RX ∧ r.state = SYNC)
  · have hs : step r (Call.switchTo q.target q.now) = some r := by
      simp only [step, switchTo_noop r q.target q.now hn, Option.map_some']
    rw [if_pos hn]
    constructor
    · intro p hp
      simp only [history, hs, List.mem_singleton] at hp
      rw [hp]
      exact hr
    · intro r1 h1
      simp only [run, hs] at h1
      cases h1
      exact hr
  · rw [if_neg hn]
    cases hs : step r (Call.switchTo q.target q.now) with
    | none =>
      constructor
      · intro p hp
        simp only [history, hs, List.not_mem_nil] at hp
      · intro r1 h1
        simp only [run, hs] at h1
        cases h1
    | some ra =>
      obtain ⟨ha1, ha2⟩ := step_switchTo_really_states r ra q.target q.now hn hs
      cases he : step ra (Call.endSwitch q.done) with
      | none =>
        constructor
        · intro p hp
          simp only [history, hs, he, List.mem_singleton] at hp
          rw [hp]
          show ra.state ≠ RX
          rw [ha1]
          decide
        · intro r1 h1
          simp only [run, hs, he] at h1
          cases h1
      | some r2 =>
        have hst := (step_states ra r2 _ he).2
        have h2 : r2.state ≠ RX := by
          rw [hst.1, ha2]
          exact rewritten_target_ne_RX q.target
        constructor
        · intro p hp
          simp only [history, hs, he, List.mem_cons, List.not_mem_nil, or_false] at hp
          rcases hp with hp | hp
          · rw [hp]
            show ra.state ≠ RX
            rw [ha1]
            decide
          · rw [hp]
            exact h2
        · intro r1 h1
          simp only [run, hs, he] at h1
          cases h1
          exact h2

theorem trace_stays_out_of_RX (qs : List Request) :
    ∀ r : UWBIRRadio, r.state ≠ RX →
      (∀ p ∈ history r (trace r qs), p.2 ≠ RX) ∧
      (∀ r1, run r (trace r qs) = some r1 → r1.state ≠ RX) := by
  induction qs with
  | nil =>
    intro r hr
    constructor
    · intro p hp
      simp only [trace, history, List.not_mem_nil] at hp
    · intro r1 h1
      simp only [trace, run] at h1
      cases h1
      exact hr
  | cons q qs ih =>
    intro r hr
    obtain ⟨hq1, hq2⟩ := request_stays_out_of_RX r q hr
    simp only [trace, history_append, run_append]
    cases hrun : run r (q.calls r) with
    | none =>
      constructor
      · intro p hp
        simp only [List.append_nil, hrun] at hp
        exact hq1 p hp
      · intro r1 h1
        simp only [Option.bind] at h1
        cases h1
    | some r2 =>
      obtain ⟨ih1, ih2⟩ := ih r2 (hq2 r2 hrun)
      constructor
      · intro p hp
        rw [List.mem_append] at hp
        rcases hp with hp | hp
        · exact hq1 p hp
        · exact ih1 p hp
      · intro r1 h1
        exact ih2 r1 h1

end UWBIRRadio

namespace UWBIRRadio

theorem scenario_trace_run :
    ∃ r1, run scenarioRadio (trace scenarioRadio scenarioRequests) = some r1 := by
  have h : (run scenarioRadio (trace scenarioRadio scenarioRequests)).isSome = true := by
    rw [scenario_trace]
    norm_num [run, step, switchTo, reallySwitchTo, updatePowerConsumption, endSwitch,
      Radio.endSwitch, scenarioRadio, createNewUWBIRRadio, construct, Radio.construct,
      RX, TX, SLEEP, SWITCHING, SYNC]
  exact Option.isSome_iff_exists.mp h

/-- C12: for every radio and every target in {RX, TX, SLEEP}, a non-no-op
`switchTo(target, now)` (with `now >= lastStateChange`) leaves `nextState != RX`,
and the `endSwitch(done)` that completes it (with `done >= now`) leaves
`state != RX`.  Hence along every trace of requests, each non-no-op `switchTo`
followed by its `endSwitch`, that starts in a state other than RX, the state
after every call is different from RX, and so is the state at the end. -/
theorem no_direct_entry_into_RX (r : UWBIRRadio) :
    (∀ (target : Int) (now done : ℚ),
      target = RX ∨ target = TX ∨ target = SLEEP →
      ¬ (target = r.state ∨ (target = RX ∧ r.state = SYNC)) →
      r.lastStateChange ≤ now → now ≤ done →
      ∃ d r1 r2, switchTo r target now = some (d, r1) ∧ r1.nextState ≠ RX ∧
        endSwitch r1 done = some r2 ∧ r2.state ≠ RX) ∧
    (∀ qs : List Request,
      (∀ q ∈ qs, q.target = RX ∨ q.target = TX ∨ q.target = SLEEP) →
      r.state ≠ RX →
      (∀ p ∈ history r (trace r qs), p.2 ≠ RX) ∧
      (∀ r1, run r (trace r qs) = some r1 → r1.state ≠ RX)) := by
  constructor
  · intro target now done _ hn h1 h2
    have hsw := (switchTo_really r target now hn).trans (reallySwitchTo_of_le r _ now h1)
    exact ⟨_, _, _, hsw, rewritten_target_ne_RX target, endSwitch_of_le _ done h2,
      rewritten_target_ne_RX target⟩
  · intro qs _ hr
    exact trace_stays_out_of_RX qs r hr

/-- Witness for C12: the scenario radio in TX asked for RX at time 4 and
completed at 6, and the three scenario requests on the scenario radio. -/
theorem no_direct_entry_into_RX_witness :
    (∃ d r1 r2, switchTo (scenarioIn TX) RX 4 = some (d, r1) ∧ r1.nextState ≠ RX ∧
      endSwitch r1 6 = some r2 ∧ r2.state ≠ RX) ∧
    (∀ p ∈ history scenarioRadio (trace scenarioRadio scenarioRequests), p.2 ≠ RX) ∧
    ∃ r1, run scenarioRadio (trace scenarioRadio scenarioRequests) = some r1 ∧
      r1.state ≠ RX :=
  have h := (no_direct_entry_into_RX scenarioRadio).2 scenarioRequests (by decide)
    (by decide)
  ⟨(no_direct_entry_into_RX (scenarioIn TX)).1 RX 4 6 (Or.inl rfl) (by decide)
      (by norm_num [scenarioIn, scenarioRadio, createNewUWBIRRadio, construct])
      (by norm_num),
   h.1, scenario_trace_run.elim fun r1 hr => ⟨r1, hr, h.2 r1 hr⟩⟩

end UWBIRRadio
